import Mathlib

/-
Shallow embedding of babyman/idiff (src/main.go), a CLI tool that compares
two directories of PNG images with an external ImageMagick `compare`
subprocess and writes three-panel composite images.

Modelling conventions:
  * Go `image.Point` / `image.Rectangle` / `image.Image` become `Pt`,
    `Rect`, `Img`; a pixel is an abstract `Nat` colour value (0 is Go's
    zero colour, as produced by `image.NewRGBA`, and as returned by `At`
    outside an image's bounds).
  * The filesystem is `FS : String → Option Entry`: `none` means
    `os.Stat` fails for the path, `Entry.dir` is a directory, and
    `Entry.file c` is a regular file whose PNG-decoded content is `c`
    (`c = none` for a file `png.Decode` rejects).  The PNG codec is an
    external collaborator, so encode/decode are modelled as the identity
    on the stored `Img`.
  * The external diff tool is an abstract `Tool`: given the current
    filesystem and the shell-command arguments it returns the new
    filesystem and an exit-success flag (the Go code ignores both the
    captured output and the error of `exec.Command(...).Output()`).
  * Go channels become lists (for the job stream) and, for the fan-in
    stage whose emission order is nondeterministic, multisets.
  * A Go `nil`-interface method call (`img.Bounds()` on a nil image)
    panics and kills the whole process; a function that can panic
    returns `Option`, with `none` for the panic.
-/

namespace Idiff

/-- Go image.Point. -/
structure Pt where
  x : Int
  y : Int
deriving DecidableEq, Repr

/-- Go image.Rectangle. -/
structure Rect where
  min : Pt
  max : Pt
deriving DecidableEq, Repr

/-- Go image.Image: bounds plus the At function (abstract colour values). -/
structure Img where
  bounds : Rect
  pix : Int → Int → Nat

/-- Membership of a point in a rectangle, Go Point.In. -/
def inRect (r : Rect) (x y : Int) : Prop :=
  r.min.x ≤ x ∧ x < r.max.x ∧ r.min.y ≤ y ∧ y < r.max.y

instance (r : Rect) (x y : Int) : Decidable (inRect r x y) := by
  unfold inRect; infer_instance

/-- Go Rectangle.Add: translate a rectangle by a point. -/
def rectAdd (r : Rect) (p : Pt) : Rect :=
  ⟨⟨r.min.x + p.x, r.min.y + p.y⟩, ⟨r.max.x + p.x, r.max.y + p.y⟩⟩

/-- Go image.Rect(x0, y0, x1, y1), which swaps coordinates given in the
wrong order. -/
def imageRect (x0 y0 x1 y1 : Int) : Rect :=
  if x1 < x0 then
    if y1 < y0 then ⟨⟨x1, y1⟩, ⟨x0, y0⟩⟩ else ⟨⟨x1, y0⟩, ⟨x0, y1⟩⟩
  else
    if y1 < y0 then ⟨⟨x0, y1⟩, ⟨x1, y0⟩⟩ else ⟨⟨x0, y0⟩, ⟨x1, y1⟩⟩

/-- Go image.NewRGBA: a canvas with the given bounds, all pixels the zero
colour. -/
def newRGBA (r : Rect) : Img :=
  ⟨r, fun _ _ => 0⟩

/-- Go draw.Draw(dst, r, src, sp, draw.Src): on the region
r ∩ dst.Bounds() ∩ (src.Bounds() translated by r.Min − sp) the destination
pixel at p becomes src.At(p − r.Min + sp); elsewhere dst is unchanged. -/
def drawSrc (dst : Img) (r : Rect) (src : Img) (sp : Pt) : Img :=
  { bounds := dst.bounds
    pix := fun x y =>
      if inRect r x y ∧ inRect dst.bounds x y ∧
          inRect src.bounds (x - r.min.x + sp.x) (y - r.min.y + sp.y) then
        src.pix (x - r.min.x + sp.x) (y - r.min.y + sp.y)
      else
        dst.pix x y }

/-- Go intMax from src/main.go. -/
def intMax (i1 i2 : Int) : Int :=
  if i1 > i2 then i1 else i2

/-- Go combineImages from src/main.go: combine 3 images side by side on a
canvas of width Max.X₁+Max.X₂+Max.X₃ and height max of the Max.Y.  The Go
function also PNG-encodes the canvas to outputFile; that write is modelled
at the call site in compareFiles. -/
def combineImages (img1 img2 img3 : Img) : Img :=
  let width := img1.bounds.max.x + img2.bounds.max.x + img3.bounds.max.x
  let height := intMax (intMax img1.bounds.max.y img2.bounds.max.y) img3.bounds.max.y
  let image2Offset : Pt := ⟨img1.bounds.max.x, 0⟩
  let image3Offset : Pt := ⟨img1.bounds.max.x + img2.bounds.max.x, 0⟩
  let newImage := newRGBA (imageRect 0 0 width height)
  let newImage := drawSrc newImage img1.bounds img1 ⟨0, 0⟩
  let newImage := drawSrc newImage (rectAdd img2.bounds image2Offset) img2 ⟨0, 0⟩
  let newImage := drawSrc newImage (rectAdd img3.bounds image3Offset) img3 ⟨0, 0⟩
  newImage

/-- Go resizeImage from src/main.go: draw img1 on a fresh canvas with the
given bounds.  The Go function also PNG-encodes the canvas to outputFile;
that write is modelled at the call site in commonSizeImageLengths. -/
def resizeImage (img1 : Img) (size : Rect) : Img :=
  drawSrc (newRGBA size) img1.bounds img1 ⟨0, 0⟩

/-- A filesystem entry: a directory, or a regular file with its PNG-decoded
content (none when png.Decode fails on it). -/
inductive Entry where
  | dir : Entry
  | file : Option Img → Entry

/-- The filesystem: none means os.Stat fails for the path. -/
def FS : Type := String → Option Entry

/-- Writing an image to a path (os.Create + png.Encode, errors ignored). -/
def fsWrite (fs : FS) (path : String) (img : Img) : FS :=
  fun q => if q = path then some (Entry.file (some img)) else fs q

/-- Go os.Remove (its error is ignored by the caller). -/
def fsRemove (fs : FS) (path : String) : FS :=
  fun q => if q = path then none else fs q

/-- Go loadAndDecodePng from src/main.go: os.Open then png.Decode, returning
nil (here none) when either fails. -/
def loadAndDecodePng (fs : FS) (filePath : String) : Option Img :=
  match fs filePath with
  | some (Entry.file (some img)) => some img
  | _ => none

/-- Go fileExists from src/main.go: false when os.Stat fails or the entry
is a directory. -/
def fileExists (fs : FS) (path : String) : Bool :=
  match fs path with
  | none => false
  | some Entry.dir => false
  | some (Entry.file _) => true

/-- Go commonSizeImageLengths from src/main.go: decode both inputs, and if
one is shorter (smaller Bounds().Max.Y) re-draw it on a canvas with the
taller image's bounds, encoded to the temporary path `out`.  Returns the
two paths to hand to the diff tool together with the filesystem after the
possible temp-file write.  When either decode fails the Go code calls
Bounds() on a nil image and panics: result none. -/
def commonSizeImageLengths (fs : FS) (in1 in2 out : String) :
    Option (String × String × FS) :=
  match loadAndDecodePng fs in1, loadAndDecodePng fs in2 with
  | some img1, some img2 =>
    if img1.bounds.max.y > img2.bounds.max.y then
      some (in1, out, fsWrite fs out (resizeImage img2 img1.bounds))
    else if img2.bounds.max.y > img1.bounds.max.y then
      some (out, in2, fsWrite fs out (resizeImage img1 img2.bounds))
    else
      some (in1, in2, fs)
  | _, _ => none

/-- Go struct DiffJob from src/main.go. -/
structure DiffJob where
  inFile1 : String
  inFile2 : String
  outFile : String
  comparePath : String
deriving DecidableEq, Repr

/-- Go type DiffJobTask = func(DiffJob) *DiffJob; none models a nil
pointer result. -/
def DiffJobTask : Type := DiffJob → Option DiffJob

/-- The external diff tool (ImageMagick compare), an external collaborator:
given the filesystem and the arguments of the shell command
comparePath inA inB -highlight-color blue outFile, it yields the new
filesystem and whether the process exited with status 0.  The Go code
captures but ignores both the output and the error. -/
def Tool : Type := FS → String → String → String → String → FS × Bool

/-- Build a Tool from its filesystem effect and a fixed exit flag. -/
def mkTool (effect : FS → String → String → String → String → FS) (ok : Bool) : Tool :=
  fun fs comparePath inA inB outFile => (effect fs comparePath inA inB outFile, ok)

/-- Go compareFiles from src/main.go: normalize the two inputs to a common
height (possibly writing the temp file resize = outFile ++ "tmp"), run the
external tool (its exit status is ignored), decode the two normalized
inputs and the tool's output, combine them side by side into outFile and
delete the temp file.  none models the process panic that a failed decode
causes (Bounds() on a nil image), either inside commonSizeImageLengths or
at the combineImages call. -/
def compareFiles (tool : Tool) (fs : FS) (comparePath in1 in2 outFile : String) :
    Option FS :=
  let resize := outFile ++ "tmp"
  match commonSizeImageLengths fs in1 in2 resize with
  | none => none
  | some (inA, inB, fs1) =>
    let fs2 := (tool fs1 comparePath inA inB outFile).1
    match loadAndDecodePng fs2 inA, loadAndDecodePng fs2 inB,
        loadAndDecodePng fs2 outFile with
    | some img1, some img2, some imgDiff =>
      let fs3 := fsWrite fs2 outFile (combineImages img1 imgDiff img2)
      some (fsRemove fs3 resize)
    | _, _, _ => none

/-- Outcome of running one Go task on a job: either the goroutine panics
(killing the process), or the task returns a possibly-nil job pointer,
with the filesystem after the task's side effects. -/
inductive TaskOut where
  | panic : TaskOut
  | ret : Option DiffJob → FS → TaskOut

/-- Go diffFiles from src/main.go: run compareFiles for the job and return
the (unchanged) job pointer; it has no nil-returning path. -/
def diffFiles (tool : Tool) (fs : FS) (job : DiffJob) : TaskOut :=
  match compareFiles tool fs job.comparePath job.inFile1 job.inFile2 job.outFile with
  | none => TaskOut.panic
  | some fs1 => TaskOut.ret (some job) fs1

/-- Go filterDiffJobs from src/main.go: nil unless both input files exist
as regular files. -/
def filterDiffJobs (fs : FS) (job : DiffJob) : Option DiffJob :=
  if !fileExists fs job.inFile1 || !fileExists fs job.inFile2 then
    none
  else
    some job

/-- Go filepath.Ext: the suffix of the last element starting at the final
dot; empty when the last element has no dot.  Scans the reversed character
list, stopping at a path separator. -/
def extFromRev : List Char → List Char → List Char
  | [], _ => []
  | c :: rest, acc =>
    if c = '/' then []
    else if c = '.' then c :: acc
    else extFromRev rest (c :: acc)

/-- Go filepath.Ext on a path. -/
def filepathExt (path : String) : String :=
  String.mk (extFromRev path.data.reverse [])

/-- Go filepath.Join for a directory and a file name (the stdlib also
cleans the result; for a clean directory with no trailing separator it is
this concatenation). -/
def filepathJoin (dir name : String) : String :=
  dir ++ "/" ++ name

/-- Go grabJobChannelGenerator from src/main.go: listing is the result of
ioutil.ReadDir on inDir1 (none when it fails, upon which the goroutine
calls log.Fatal and the process dies: result none).  Emits one DiffJob per
listed name with extension ".png", joining the shared name with each of
the three directories; the channel is modelled by the emitted list. -/
def grabJobChannelGenerator (comparePath inDir1 indDir2 outDir : String)
    (listing : Option (List String)) : Option (List DiffJob) :=
  match listing with
  | none => none
  | some files =>
    some ((files.filter (fun n => filepathExt n == ".png")).map
      (fun n => ⟨filepathJoin inDir1 n, filepathJoin indDir2 n,
                 filepathJoin outDir n, comparePath⟩))

/-- Go performDiffJobTask from src/main.go, for a pure task: forward every
non-nil task result, in input order; the output channel closes when the
input closes (the stream is the list). -/
def performDiffJobTask (task : DiffJobTask) (chIn : List DiffJob) : List DiffJob :=
  chIn.filterMap task

/-- The jobs a given worker receives when the shared input channel hands
the tagged stream out: worker i gets, in order, the jobs tagged i.  A
tagging of the stream is exactly a run of the nondeterministic fan-out
distribution. -/
def workerInput {n : ℕ} (tagged : List (DiffJob × Fin n)) (i : Fin n) : List DiffJob :=
  (tagged.filter (fun p => p.2 == i)).map Prod.fst

/-- Go fanOut from src/main.go: n copies of performDiffJobTask over the
shared input, here applied to the distribution described by the tagging. -/
def fanOut (n : ℕ) (task : DiffJobTask) (tagged : List (DiffJob × Fin n)) :
    Fin n → List DiffJob :=
  fun i => performDiffJobTask task (workerInput tagged i)

/-- Go fanDiffJobsIn from src/main.go: merge the worker channels into one
channel that closes after every worker channel has closed.  The emission
order is completion order (nondeterministic), so the observable content of
the combined stream is the multiset of all workers' outputs. -/
def fanDiffJobsIn {n : ℕ} (chIns : Fin n → List DiffJob) : Multiset DiffJob :=
  ∑ i : Fin n, (chIns i : Multiset DiffJob)

/-- What main does with the CLI arguments. -/
inductive MainAction where
  | usageExit : Nat → MainAction
  | run : String → String → String → MainAction
deriving DecidableEq, Repr

/-- The argument handling of Go main from src/main.go: args is the raw
os.Args (program name included, flag tokens NOT removed, since the code
reads os.Args rather than flag.Args()); with len(args) ≠ 4 it prints usage
and calls os.Exit(0), otherwise dir1, dir2, outDir are args[1..3]. -/
def mainDispatch (args : List String) : MainAction :=
  if args.length ≠ 4 then
    MainAction.usageExit 0
  else
    MainAction.run (args.getD 1 "") (args.getD 2 "") (args.getD 3 "")

/-- Sequential run of the diff workers over the filtered job list (the
n = 1 schedule), threading the filesystem: a panic in any worker goroutine
kills the process (none); a nil task result is not forwarded. -/
def runJobs (tool : Tool) : FS → List DiffJob → Option (List DiffJob × FS)
  | fs, [] => some ([], fs)
  | fs, j :: rest =>
    match diffFiles tool fs j with
    | TaskOut.panic => none
    | TaskOut.ret none fs1 => runJobs tool fs1 rest
    | TaskOut.ret (some j1) fs1 =>
      (runJobs tool fs1 rest).map (fun p => (j1 :: p.1, p.2))

/-- The whole pipeline of main: generate jobs from the listing of dir1,
filter them against the filesystem, then run the diff workers; the result
is the list of jobs the fan-in emits (in the n = 1 schedule) and the final
filesystem, or none when the process dies. -/
def runPipeline (tool : Tool) (fs : FS) (comparePath dir1 dir2 outDir : String)
    (listing : Option (List String)) : Option (List DiffJob × FS) :=
  match grabJobChannelGenerator comparePath dir1 dir2 outDir listing with
  | none => none
  | some jobs => runJobs tool fs (jobs.filterMap (filterDiffJobs fs))

/-- The shape every PNG-decoded Go image has: bounds with origin (0, 0)
and non-negative extents. -/
def wellFormed (i : Img) : Prop :=
  i.bounds.min.x = 0 ∧ i.bounds.min.y = 0 ∧ 0 ≤ i.bounds.max.x ∧ 0 ≤ i.bounds.max.y

instance (i : Img) : Decidable (wellFormed i) := by
  unfold wellFormed; infer_instance

/-- The path names an existing regular (non-directory) file. -/
def isRegularFile (fs : FS) (path : String) : Prop :=
  ∃ c, fs path = some (Entry.file c)

/-- The job pointer a task run returned (none for nil or for a panic). -/
def retJob : TaskOut → Option DiffJob
  | TaskOut.panic => none
  | TaskOut.ret j _ => j

/-- The filesystem after a task run (empty for a panic). -/
def retFS : TaskOut → FS
  | TaskOut.panic => fun _ => none
  | TaskOut.ret _ fs => fs

/- Concrete fixtures used by witnesses and counterexamples. -/

/-- A 1×1 image, all pixels 0. -/
def img1x1 : Img :=
  ⟨⟨⟨0, 0⟩, ⟨1, 1⟩⟩, fun _ _ => 0⟩

/-- A 2×1 image whose pixel (1, 0) has colour 1. -/
def imgWide : Img :=
  ⟨⟨⟨0, 0⟩, ⟨2, 1⟩⟩, fun x y => if x = 1 ∧ y = 0 then 1 else 0⟩

/-- A 1×2 image, all pixels 0. -/
def imgTall : Img :=
  ⟨⟨⟨0, 0⟩, ⟨1, 2⟩⟩, fun _ _ => 0⟩

/-- The empty filesystem. -/
def emptyFS : FS :=
  fun _ => none

/-- A filesystem with two decodable 1×1 PNGs. -/
def wfs : FS :=
  fun p =>
    if p = "a.png" then some (Entry.file (some img1x1))
    else if p = "b.png" then some (Entry.file (some img1x1))
    else none

/-- A filesystem where a.png (2×1) is shorter but wider than b.png (1×2). -/
def cropFS : FS :=
  fun p =>
    if p = "a.png" then some (Entry.file (some imgWide))
    else if p = "b.png" then some (Entry.file (some imgTall))
    else none

/-- A filesystem where a.png (1×1) is shorter and no wider than b.png (1×2). -/
def padFS : FS :=
  fun p =>
    if p = "a.png" then some (Entry.file (some img1x1))
    else if p = "b.png" then some (Entry.file (some imgTall))
    else none

/-- An unreachable external tool: no filesystem effect, non-zero exit. -/
def idTool : Tool :=
  mkTool (fun fs _ _ _ _ => fs) false

/-- A tool that writes a 1×1 diff image to the output path and exits with
status 1 (as ImageMagick compare does for images that differ). -/
def writeTool : Tool :=
  mkTool (fun fs _ _ _ outFile => fsWrite fs outFile img1x1) false

/-- A concrete job over wfs. -/
def jobAB : DiffJob :=
  ⟨"a.png", "b.png", "out.png", "compare"⟩

/- Helper lemmas. -/

theorem intMax_eq_max (i1 i2 : Int) : intMax i1 i2 = max i1 i2 := by
  unfold intMax
  split <;> omega

theorem drawSrc_bounds (dst : Img) (r : Rect) (src : Img) (sp : Pt) :
    (drawSrc dst r src sp).bounds = dst.bounds :=
  rfl

theorem drawSrc_pix_in (dst : Img) (r : Rect) (src : Img) (sp : Pt) (x y : Int)
    (h : inRect r x y ∧ inRect dst.bounds x y ∧
      inRect src.bounds (x - r.min.x + sp.x) (y - r.min.y + sp.y)) :
    (drawSrc dst r src sp).pix x y =
      src.pix (x - r.min.x + sp.x) (y - r.min.y + sp.y) := by
  simp only [drawSrc, if_pos h]

theorem drawSrc_pix_out (dst : Img) (r : Rect) (src : Img) (sp : Pt) (x y : Int)
    (h : ¬(inRect r x y ∧ inRect dst.bounds x y ∧
      inRect src.bounds (x - r.min.x + sp.x) (y - r.min.y + sp.y))) :
    (drawSrc dst r src sp).pix x y = dst.pix x y := by
  simp only [drawSrc, if_neg h]

theorem fileExists_iff (fs : FS) (path : String) :
    fileExists fs path = true ↔ isRegularFile fs path := by
  unfold fileExists isRegularFile
  cases h : fs path with
  | none => simp
  | some e => cases e <;> simp

/-- C3: For every pair of input images of equal height, common-size
normalization returns the two original paths unchanged and in order
(A first, B second), and creates no temporary file (the filesystem is
returned unchanged). -/
theorem commonSize_idempotent (fs : FS) (in1 in2 out : String) (imgA imgB : Img)
    (h1 : loadAndDecodePng fs in1 = some imgA)
    (h2 : loadAndDecodePng fs in2 = some imgB)
    (hA : wellFormed imgA) (hB : wellFormed imgB)
    (hh : imgA.bounds.max.y - imgA.bounds.min.y = imgB.bounds.max.y - imgB.bounds.min.y) :
    commonSizeImageLengths fs in1 in2 out = some (in1, in2, fs) := by
  unfold commonSizeImageLengths
  rw [h1, h2]
  obtain ⟨_, hay, _, _⟩ := hA
  obtain ⟨_, hby, _, _⟩ := hB
  have h : imgA.bounds.max.y = imgB.bounds.max.y := by omega
  dsimp only
  rw [h]
  simp

theorem commonSize_idempotent_witness :
    commonSizeImageLengths wfs "a.png" "b.png" "t.png" = some ("a.png", "b.png", wfs) :=
  commonSize_idempotent wfs "a.png" "b.png" "t.png" img1x1 img1x1 rfl rfl
    (by decide) (by decide) (by decide)

/-- C5: the filter stage passes the job through unchanged exactly when both
inputs exist as regular (non-directory) files, and drops it (nil, no
output) exactly otherwise. -/
theorem filterDiffJobs_spec (fs : FS) (job : DiffJob) :
    (filterDiffJobs fs job = some job ↔
      isRegularFile fs job.inFile1 ∧ isRegularFile fs job.inFile2) ∧
    (filterDiffJobs fs job = none ↔
      ¬(isRegularFile fs job.inFile1 ∧ isRegularFile fs job.inFile2)) := by
  cases h1 : fileExists fs job.inFile1 <;> cases h2 : fileExists fs job.inFile2 <;>
    simp [filterDiffJobs, h1, h2, ← fileExists_iff]

/-- C6: the job source emits one DiffJob per ".png"-named entry of the
directory-1 listing, pairing the shared name with directory 2 and the
output directory; it consults no filesystem state for directory 2 or the
output path, and a failed directory-1 listing is fatal for the whole
pipeline (none). -/
theorem grabJobs_spec (comparePath inDir1 indDir2 outDir : String) :
    grabJobChannelGenerator comparePath inDir1 indDir2 outDir none = none ∧
    ∀ files : List String, ∃ L,
      grabJobChannelGenerator comparePath inDir1 indDir2 outDir (some files) = some L ∧
      L.length = (files.filter (fun n => filepathExt n == ".png")).length ∧
      ∀ j : DiffJob, j ∈ L ↔ ∃ name, name ∈ files ∧ filepathExt name = ".png" ∧
        j = ⟨filepathJoin inDir1 name, filepathJoin indDir2 name,
             filepathJoin outDir name, comparePath⟩ := by
  refine ⟨rfl, fun files => ⟨_, rfl, ?_, ?_⟩⟩
  · simp [List.length_map]
  · intro j
    simp only [List.mem_map, List.mem_filter, beq_iff_eq]
    constructor
    · rintro ⟨name, ⟨hm, he⟩, rfl⟩
      exact ⟨name, hm, he, rfl⟩
    · rintro ⟨name, hm, he, rfl⟩
      exact ⟨name, ⟨hm, he⟩, rfl⟩

/-- C9: main checks the raw os.Args length against 4 instead of counting
the positional arguments left after flag parsing.  An invocation with the
documented -t flag and the required 3 positional arguments therefore hits
the usage-and-exit-0 path, and an invocation with a -t=2 token and only 2
positional arguments proceeds, treating the flag token as dir1.  Without
flags, exactly 3 positional arguments proceed as documented. -/
theorem mainDispatch_flags_bug :
    mainDispatch ["idiff", "-t", "2", "dir1", "dir2", "out"] = MainAction.usageExit 0 ∧
    mainDispatch ["idiff", "-t=2", "dir1", "dir2"] = MainAction.run "-t=2" "dir1" "dir2" ∧
    mainDispatch ["idiff", "dir1", "dir2", "out"] = MainAction.run "dir1" "dir2" "out" :=
  ⟨rfl, rfl, rfl⟩

theorem commonSize_panics_left (fs : FS) (in1 in2 out : String)
    (h : loadAndDecodePng fs in1 = none) :
    commonSizeImageLengths fs in1 in2 out = none := by
  unfold commonSizeImageLengths
  rw [h]

/-- C1 counterexample: with both inputs decodable 1×1 PNGs and an
unreachable external diff tool (no filesystem effect, non-zero exit), the
diff output file does not exist, its decode yields a nil image, and
compareFiles panics (none) instead of proceeding to the composite step
with a zero-value image — the claimed no-crash behaviour is false, and the
panic kills the whole process including the other jobs' goroutines. -/
theorem compareFiles_crash_cex :
    compareFiles idTool wfs "compare" "a.png" "b.png" "out.png" = none :=
  rfl

/-- C1 amended: when original-A fails to decode, or normalization succeeds
and the diff-tool output path fails to decode afterwards, the worker calls
Bounds() on a nil image and the process panics (none); the composite step
is never reached with a degenerate zero-value image. -/
theorem compareFiles_panics_on_decode_failure (tool : Tool) (fs : FS)
    (comparePath in1 in2 outFile : String) :
    (loadAndDecodePng fs in1 = none →
      compareFiles tool fs comparePath in1 in2 outFile = none) ∧
    (∀ (inA inB : String) (fs1 : FS),
      commonSizeImageLengths fs in1 in2 (outFile ++ "tmp") = some (inA, inB, fs1) →
      loadAndDecodePng (tool fs1 comparePath inA inB outFile).1 outFile = none →
      compareFiles tool fs comparePath in1 in2 outFile = none) := by
  constructor
  · intro h
    simp only [compareFiles]
    rw [commonSize_panics_left fs in1 in2 _ h]
  · intro inA inB fs1 hcs hload
    simp only [compareFiles]
    rw [hcs]
    dsimp only
    rw [hload]
    cases loadAndDecodePng (tool fs1 comparePath inA inB outFile).1 inA <;>
      cases loadAndDecodePng (tool fs1 comparePath inA inB outFile).1 inB <;> rfl

theorem compareFiles_panics_witness :
    compareFiles idTool emptyFS "compare" "a.png" "b.png" "out.png" = none :=
  (compareFiles_panics_on_decode_failure idTool emptyFS "compare"
    "a.png" "b.png" "out.png").1 rfl

/-- C7: whenever the diff worker returns (does not panic), the returned
job pointer is the unchanged input job — never nil, so no job is dropped
at this stage; and the external tool's exit status has no influence at all
on the worker's result (only the tool's filesystem effect matters), so a
non-zero exit is observed but neither aborts the job nor propagates. -/
theorem diffFiles_ack (tool : Tool) (fs : FS) (job : DiffJob) :
    (∀ (j : Option DiffJob) (fs1 : FS),
      diffFiles tool fs job = TaskOut.ret j fs1 → j = some job) ∧
    (∀ (effect : FS → String → String → String → String → FS) (ok1 ok2 : Bool),
      diffFiles (mkTool effect ok1) fs job = diffFiles (mkTool effect ok2) fs job) := by
  constructor
  · intro j fs1 h
    unfold diffFiles at h
    cases hc : compareFiles tool fs job.comparePath job.inFile1 job.inFile2 job.outFile with
    | none => rw [hc] at h; simp at h
    | some fs2 => rw [hc] at h; simp at h; exact h.1.symm
  · intro effect ok1 ok2
    rfl

theorem diffFiles_ack_witness :
    retJob (diffFiles writeTool wfs jobAB) = some jobAB :=
  (diffFiles_ack writeTool wfs jobAB).1 (retJob (diffFiles writeTool wfs jobAB))
    (retFS (diffFiles writeTool wfs jobAB)) rfl

/-- C2: for decoded raster images A, D, B (origin (0,0), non-negative
extents), combineImages A D B builds a canvas of width
width(A)+width(D)+width(B) and height max(height A, height D, height B),
with A's pixels at horizontal offset 0, D's at offset width(A) and B's at
offset width(A)+width(D), each top-aligned (their rows keep their own y);
the placement depends only on argument position. -/
theorem combineImages_spec (i1 i2 i3 : Img)
    (h1 : wellFormed i1) (h2 : wellFormed i2) (h3 : wellFormed i3) :
    (combineImages i1 i2 i3).bounds =
      ⟨⟨0, 0⟩, ⟨i1.bounds.max.x + i2.bounds.max.x + i3.bounds.max.x,
        max (max i1.bounds.max.y i2.bounds.max.y) i3.bounds.max.y⟩⟩ ∧
    (∀ x y : Int, 0 ≤ x → x < i1.bounds.max.x → 0 ≤ y → y < i1.bounds.max.y →
      (combineImages i1 i2 i3).pix x y = i1.pix x y) ∧
    (∀ x y : Int, 0 ≤ x → x < i2.bounds.max.x → 0 ≤ y → y < i2.bounds.max.y →
      (combineImages i1 i2 i3).pix (i1.bounds.max.x + x) y = i2.pix x y) ∧
    (∀ x y : Int, 0 ≤ x → x < i3.bounds.max.x → 0 ≤ y → y < i3.bounds.max.y →
      (combineImages i1 i2 i3).pix (i1.bounds.max.x + i2.bounds.max.x + x) y
        = i3.pix x y) := by
  obtain ⟨m1x, m1y, w1n, h1n⟩ := h1
  obtain ⟨m2x, m2y, w2n, h2n⟩ := h2
  obtain ⟨m3x, m3y, w3n, h3n⟩ := h3
  have hrect : imageRect 0 0 (i1.bounds.max.x + i2.bounds.max.x + i3.bounds.max.x)
      (max (max i1.bounds.max.y i2.bounds.max.y) i3.bounds.max.y) =
      ⟨⟨0, 0⟩, ⟨i1.bounds.max.x + i2.bounds.max.x + i3.bounds.max.x,
        max (max i1.bounds.max.y i2.bounds.max.y) i3.bounds.max.y⟩⟩ := by
    unfold imageRect
    rw [if_neg (by omega), if_neg (by omega)]
  refine ⟨?_, ?_, ?_, ?_⟩
  · simp only [combineImages, intMax_eq_max, hrect, drawSrc_bounds, newRGBA]
  · intro x y hx0 hx1 hy0 hy1
    simp only [combineImages, intMax_eq_max, hrect, drawSrc, newRGBA, rectAdd, inRect]
    split_ifs <;> try omega
    simp [m1x, m1y]
  · intro x y hx0 hx1 hy0 hy1
    simp only [combineImages, intMax_eq_max, hrect, drawSrc, newRGBA, rectAdd, inRect]
    split_ifs <;> try omega
    simp [m1x, m2x, m2y, add_sub_cancel_left]
  · intro x y hx0 hx1 hy0 hy1
    simp only [combineImages, intMax_eq_max, hrect, drawSrc, newRGBA, rectAdd, inRect]
    split_ifs <;> try omega
    simp [m1x, m2x, m3x, m3y, add_sub_cancel_left]

theorem combineImages_spec_witness :
    (combineImages img1x1 img1x1 img1x1).pix (img1x1.bounds.max.x + 0) 0
      = img1x1.pix 0 0 :=
  (combineImages_spec img1x1 img1x1 img1x1 (by decide) (by decide) (by decide)).2.2.1
    0 0 (by decide) (by decide) (by decide) (by decide)

theorem loadAndDecodePng_fsWrite_self (fs : FS) (p : String) (img : Img) :
    loadAndDecodePng (fsWrite fs p img) p = some img := by
  simp [loadAndDecodePng, fsWrite]

theorem loadAndDecodePng_fsWrite_other (fs : FS) (p q : String) (img : Img)
    (h : q ≠ p) :
    loadAndDecodePng (fsWrite fs p img) q = loadAndDecodePng fs q := by
  simp [loadAndDecodePng, fsWrite, h]

theorem commonSize_resizes_first (fs : FS) (in1 in2 out : String) (imgA imgB : Img)
    (h1 : loadAndDecodePng fs in1 = some imgA)
    (h2 : loadAndDecodePng fs in2 = some imgB)
    (hlt : imgA.bounds.max.y < imgB.bounds.max.y) :
    commonSizeImageLengths fs in1 in2 out =
      some (out, in2, fsWrite fs out (resizeImage imgA imgB.bounds)) := by
  unfold commonSizeImageLengths
  rw [h1, h2]
  dsimp only
  rw [if_neg (by omega), if_pos (by omega)]

theorem commonSize_resizes_second (fs : FS) (in1 in2 out : String) (imgA imgB : Img)
    (h1 : loadAndDecodePng fs in1 = some imgA)
    (h2 : loadAndDecodePng fs in2 = some imgB)
    (hlt : imgB.bounds.max.y < imgA.bounds.max.y) :
    commonSizeImageLengths fs in1 in2 out =
      some (in1, out, fsWrite fs out (resizeImage imgB imgA.bounds)) := by
  unfold commonSizeImageLengths
  rw [h1, h2]
  dsimp only
  rw [if_pos (by omega)]

theorem resizeImage_pads (imgS imgT : Img) (hS : wellFormed imgS) (hT : wellFormed imgT)
    (hw : imgS.bounds.max.x ≤ imgT.bounds.max.x)
    (hh : imgS.bounds.max.y ≤ imgT.bounds.max.y) :
    (resizeImage imgS imgT.bounds).bounds = imgT.bounds ∧
    (∀ x y : Int, inRect imgS.bounds x y →
      (resizeImage imgS imgT.bounds).pix x y = imgS.pix x y) ∧
    (∀ x y : Int, inRect imgT.bounds x y → ¬ inRect imgS.bounds x y →
      (resizeImage imgS imgT.bounds).pix x y = 0) := by
  obtain ⟨mSx, mSy, wSn, hSn⟩ := hS
  obtain ⟨mTx, mTy, wTn, hTn⟩ := hT
  refine ⟨rfl, ?_, ?_⟩
  · intro x y hin
    obtain ⟨a1, a2, a3, a4⟩ := hin
    simp only [resizeImage, drawSrc, newRGBA, inRect]
    rw [if_pos (by omega)]
    simp [mSx, mSy]
  · intro x y hinT hninS
    obtain ⟨b1, b2, b3, b4⟩ := hinT
    unfold inRect at hninS
    simp only [resizeImage, drawSrc, newRGBA, inRect]
    rw [if_neg (by omega)]

/-- C4 counterexample: with a.png 2×1 (its pixel (1,0) has colour 1) and
b.png 1×2, the heights differ, so a.png is redrawn on a canvas with
b.png's 1×2 bounds — but that canvas is narrower than a.png, so the
original pixel (1,0) is cropped away (the padded image reads 0 there),
refuting the claim that the original's pixels always survive unchanged. -/
theorem resize_crops_cex :
    commonSizeImageLengths cropFS "a.png" "b.png" "t.png" =
      some ("t.png", "b.png",
        fsWrite cropFS "t.png" (resizeImage imgWide imgTall.bounds)) ∧
    inRect imgWide.bounds 1 0 ∧
    imgWide.pix 1 0 = 1 ∧
    (resizeImage imgWide imgTall.bounds).pix 1 0 = 0 :=
  ⟨rfl, by decide, by decide, by decide⟩

/-- C4 amended: for inputs of unequal height whose shorter image is also
no wider than the taller one, normalization pads (does not scale or crop):
a canvas with the taller image's bounds is allocated, the shorter image's
pixels are drawn unchanged at offset (0,0), the remaining canvas area is
the zero/background colour, the result is written to the temporary path,
the taller image's own path is returned untouched, and the two returned
paths decode to images of identical pixel dimensions.  Without the width
condition the shorter image is cropped (see the counterexample). -/
theorem commonSize_pads_shorter (fs : FS) (in1 in2 out : String) (imgA imgB : Img)
    (h1 : loadAndDecodePng fs in1 = some imgA)
    (h2 : loadAndDecodePng fs in2 = some imgB)
    (hA : wellFormed imgA) (hB : wellFormed imgB)
    (hout1 : out ≠ in1) (hout2 : out ≠ in2) :
    (imgA.bounds.max.y < imgB.bounds.max.y → imgA.bounds.max.x ≤ imgB.bounds.max.x →
      ∃ w, commonSizeImageLengths fs in1 in2 out = some (out, in2, fsWrite fs out w) ∧
        w.bounds = imgB.bounds ∧
        (∀ x y : Int, inRect imgA.bounds x y → w.pix x y = imgA.pix x y) ∧
        (∀ x y : Int, inRect imgB.bounds x y → ¬ inRect imgA.bounds x y →
          w.pix x y = 0) ∧
        loadAndDecodePng (fsWrite fs out w) out = some w ∧
        loadAndDecodePng (fsWrite fs out w) in2 = some imgB) ∧
    (imgB.bounds.max.y < imgA.bounds.max.y → imgB.bounds.max.x ≤ imgA.bounds.max.x →
      ∃ w, commonSizeImageLengths fs in1 in2 out = some (in1, out, fsWrite fs out w) ∧
        w.bounds = imgA.bounds ∧
        (∀ x y : Int, inRect imgB.bounds x y → w.pix x y = imgB.pix x y) ∧
        (∀ x y : Int, inRect imgA.bounds x y → ¬ inRect imgB.bounds x y →
          w.pix x y = 0) ∧
        loadAndDecodePng (fsWrite fs out w) out = some w ∧
        loadAndDecodePng (fsWrite fs out w) in1 = some imgA) := by
  constructor
  · intro hlt hw
    refine ⟨resizeImage imgA imgB.bounds,
      commonSize_resizes_first fs in1 in2 out imgA imgB h1 h2 hlt,
      (resizeImage_pads imgA imgB hA hB hw (le_of_lt hlt)).1,
      (resizeImage_pads imgA imgB hA hB hw (le_of_lt hlt)).2.1,
      (resizeImage_pads imgA imgB hA hB hw (le_of_lt hlt)).2.2,
      loadAndDecodePng_fsWrite_self fs out _, ?_⟩
    rw [loadAndDecodePng_fsWrite_other fs out in2 _ (Ne.symm hout2)]
    exact h2
  · intro hlt hw
    refine ⟨resizeImage imgB imgA.bounds,
      commonSize_resizes_second fs in1 in2 out imgA imgB h1 h2 hlt,
      (resizeImage_pads imgB imgA hB hA hw (le_of_lt hlt)).1,
      (resizeImage_pads imgB imgA hB hA hw (le_of_lt hlt)).2.1,
      (resizeImage_pads imgB imgA hB hA hw (le_of_lt hlt)).2.2,
      loadAndDecodePng_fsWrite_self fs out _, ?_⟩
    rw [loadAndDecodePng_fsWrite_other fs out in1 _ (Ne.symm hout1)]
    exact h1

theorem commonSize_pads_witness :
    ∃ w, commonSizeImageLengths padFS "a.png" "b.png" "t.png" =
        some ("t.png", "b.png", fsWrite padFS "t.png" w) ∧
      w.bounds = imgTall.bounds ∧
      (∀ x y : Int, inRect img1x1.bounds x y → w.pix x y = img1x1.pix x y) ∧
      (∀ x y : Int, inRect imgTall.bounds x y → ¬ inRect img1x1.bounds x y →
        w.pix x y = 0) ∧
      loadAndDecodePng (fsWrite padFS "t.png" w) "t.png" = some w ∧
      loadAndDecodePng (fsWrite padFS "t.png" w) "b.png" = some imgTall :=
  (commonSize_pads_shorter padFS "a.png" "b.png" "t.png" img1x1 imgTall rfl rfl
    (by decide) (by decide) (by decide) (by decide)).1 (by decide) (by decide)

theorem workerInput_nil {n : ℕ} (i : Fin n) :
    workerInput ([] : List (DiffJob × Fin n)) i = [] :=
  rfl

theorem workerInput_cons_self {n : ℕ} (j : DiffJob) (t : Fin n)
    (rest : List (DiffJob × Fin n)) :
    workerInput ((j, t) :: rest) t = j :: workerInput rest t := by
  simp [workerInput, List.filter_cons]

theorem workerInput_cons_ne {n : ℕ} (j : DiffJob) (t i : Fin n)
    (h : t ≠ i) (rest : List (DiffJob × Fin n)) :
    workerInput ((j, t) :: rest) i = workerInput rest i := by
  simp [workerInput, List.filter_cons, beq_iff_eq, h]

theorem fanDiffJobsIn_fanOut (n : ℕ) (task : DiffJobTask)
    (tagged : List (DiffJob × Fin n)) :
    fanDiffJobsIn (fanOut n task tagged) =
      ↑(performDiffJobTask task (tagged.map Prod.fst)) := by
  induction tagged with
  | nil =>
    simp [fanDiffJobsIn, fanOut, performDiffJobTask, workerInput_nil]
  | cons p rest ih =>
    obtain ⟨j, t⟩ := p
    have herase : ∀ i ∈ Finset.univ.erase t,
        ((performDiffJobTask task (workerInput ((j, t) :: rest) i) : List DiffJob) :
          Multiset DiffJob) =
        ((performDiffJobTask task (workerInput rest i) : List DiffJob) :
          Multiset DiffJob) := by
      intro i hi
      rw [workerInput_cons_ne j t i (Ne.symm (Finset.mem_erase.mp hi).1) rest]
    have hsplit := (Finset.add_sum_erase Finset.univ
      (fun i => ((performDiffJobTask task (workerInput ((j, t) :: rest) i) :
        List DiffJob) : Multiset DiffJob)) (Finset.mem_univ t)).symm
    have hsplit2 := (Finset.add_sum_erase Finset.univ
      (fun i => ((performDiffJobTask task (workerInput rest i) :
        List DiffJob) : Multiset DiffJob)) (Finset.mem_univ t)).symm
    unfold fanDiffJobsIn fanOut at ih ⊢
    rw [hsplit, Finset.sum_congr rfl herase, workerInput_cons_self]
    unfold performDiffJobTask at ih hsplit2 ⊢
    cases h : task j with
    | none =>
      rw [List.map_cons, List.filterMap_cons_none h, List.filterMap_cons_none h,
        ← hsplit2, ih]
    | some b =>
      rw [List.map_cons, List.filterMap_cons_some h, List.filterMap_cons_some h]
      rw [← Multiset.cons_coe, ← Multiset.cons_coe, Multiset.cons_add, ← hsplit2, ih]

/-- C8: for every parallelism degree n and every distribution of the input
stream over the n workers (each worker receives a subsequence of the
shared stream, described by a tagging), the multiset of jobs the fan-in
emits equals the output of a single worker consuming the whole stream —
only emission order can differ — and its size equals the single-worker
output length, i.e. the combined stream closes only after every input job
has been consumed and processed by some worker. -/
theorem fanOut_fanIn_parallelism_invariant (n : ℕ) (task : DiffJobTask)
    (tagged : List (DiffJob × Fin n)) :
    fanDiffJobsIn (fanOut n task tagged) =
      fanDiffJobsIn (fanOut 1 task
        ((tagged.map Prod.fst).map (fun j => (j, (0 : Fin 1))))) ∧
    Multiset.card (fanDiffJobsIn (fanOut n task tagged)) =
      (performDiffJobTask task (tagged.map Prod.fst)).length := by
  constructor
  · rw [fanDiffJobsIn_fanOut, fanDiffJobsIn_fanOut, List.map_map]
    have h : (Prod.fst ∘ fun j : DiffJob => (j, (0 : Fin 1))) = id := rfl
    rw [h, List.map_id]
  · rw [fanDiffJobsIn_fanOut]
    simp

theorem runJobs_length (tool : Tool) :
    ∀ (l : List DiffJob) (fs : FS) (out : List DiffJob) (fsOut : FS),
      runJobs tool fs l = some (out, fsOut) → out.length ≤ l.length := by
  intro l
  induction l with
  | nil =>
    intro fs out fsOut h
    simp only [runJobs, Option.some.injEq, Prod.mk.injEq] at h
    rw [← h.1]
  | cons j rest ih =>
    intro fs out fsOut h
    unfold runJobs at h
    cases hd : diffFiles tool fs j with
    | panic => rw [hd] at h; simp at h
    | ret jo fs1 =>
      rw [hd] at h
      cases jo with
      | none =>
        dsimp only at h
        have := ih fs1 out fsOut h
        simp only [List.length_cons]
        omega
      | some j1 =>
        dsimp only at h
        cases hr : runJobs tool fs1 rest with
        | none => rw [hr] at h; simp at h
        | some p =>
          rw [hr] at h
          simp at h
          obtain ⟨h1, -⟩ := h
          have hlen := ih fs1 p.1 p.2 hr
          subst h1
          simp only [List.length_cons]
          omega

/-- C10: the pipeline is a total function of a finite directory listing:
when the run completes (no worker panic), the list of jobs the result loop
processes is finite, bounded by the number of directory entries — the
generator emits finitely many jobs, each stage forwards at most its input,
and the fan-in result contains exactly the jobs the workers completed. -/
theorem pipeline_terminates (tool : Tool) (fs : FS)
    (comparePath dir1 dir2 outDir : String) (files : List String)
    (out : List DiffJob) (fsOut : FS)
    (h : runPipeline tool fs comparePath dir1 dir2 outDir (some files) =
      some (out, fsOut)) :
    out.length ≤ files.length := by
  unfold runPipeline grabJobChannelGenerator at h
  dsimp only at h
  have h1 := runJobs_length tool _ fs out fsOut h
  calc out.length
      ≤ (((files.filter (fun n => filepathExt n == ".png")).map
          (fun n => (⟨filepathJoin dir1 n, filepathJoin dir2 n,
            filepathJoin outDir n, comparePath⟩ : DiffJob))).filterMap
          (filterDiffJobs fs)).length := h1
    _ ≤ ((files.filter (fun n => filepathExt n == ".png")).map
          (fun n => (⟨filepathJoin dir1 n, filepathJoin dir2 n,
            filepathJoin outDir n, comparePath⟩ : DiffJob))).length :=
        List.length_filterMap_le _ _
    _ = (files.filter (fun n => filepathExt n == ".png")).length :=
        List.length_map _ _
    _ ≤ files.length := List.length_filter_le _ _

theorem pipeline_terminates_witness :
    ([] : List DiffJob).length ≤ ["x.txt"].length :=
  pipeline_terminates idTool emptyFS "compare" "d1" "d2" "o" ["x.txt"] [] emptyFS rfl

end Idiff
